import Mathlib

/-!
Verification of src/common/ceph_crypto.cc, the branch guarded by
OPENSSL_VERSION_NUMBER < 0x10100000L, which is the code the specification
describes: the reference-counted lifecycle ceph::crypto::ssl::init and
ceph::crypto::ssl::shutdown with their lock table, thread registry and
callback installation, and the OpenSSLDigest wrapper (Restart, Update,
Final) over the EVP digest interface.

The lifecycle is embedded as a state transformer over SSLState together
with a trace of the calls made into OpenSSL and pthread (the field log).
Machine integers: crypto_refs is a std::atomic_uint32_t, so its value is
kept as a Nat below W = 2 ^ 32 and increment and decrement are taken
modulo W.  The external library is a parameter Env (the lock-slot count
reported by CRYPTO_num_locks and whether operator new succeeds); a digest
algorithm is a parameter MD (its declared size EVP_MD_size and the hash
function of the full byte sequence fed since the last init).
-/

namespace ceph.crypto.ssl

/-- Width of the std::atomic_uint32_t counter crypto_refs: all counter
arithmetic in the source is modulo 2 ^ 32. -/
def W : Nat := 2 ^ 32

/-- Observable calls made into OpenSSL and pthread by init and shutdown,
in program order. -/
inductive Ev where
  | addAllAlgorithms
  | loadErrStrings
  | allocLockTable (n : Nat)
  | mutexInit (i : Nat)
  | setLockingCallback (installed : Bool)
  | setIdCallback (installed : Bool)
  | opensslConfig
  | lockRegistry
  | unlockRegistry
  | recordTid (t : Nat)
  | removeThreadState (t : Nat)
  | engineCleanup
  | confModulesFree
  | confModulesUnload
  | errFreeStrings
  | evpCleanup
  | cleanupAllExData
  | mutexDestroy (i : Nat)
  | freeLockTable
  | abortProcess
  deriving DecidableEq

/-- Kind of a pthread mutex: PTHREAD_MUTEX_RECURSIVE or not. -/
inductive MutexKind where
  | normal
  | recursive
  deriving DecidableEq

/-- A pthread_mutex_t: its configured kind, the thread holding it and the
lock depth. -/
structure Mutex where
  kind : MutexKind
  owner : Option Nat
  depth : Nat
  deriving DecidableEq

/-- A pthread_mutex_t as it comes out of operator new, before
pthread_mutex_init ran on it. -/
def mutexUninit : Mutex := { kind := MutexKind.normal, owner := none, depth := 0 }

/-- A pthread_mutex_t right after pthread_mutex_init with an attribute of
type PTHREAD_MUTEX_RECURSIVE: unlocked and re-entrant. -/
def recMutex : Mutex := { kind := MutexKind.recursive, owner := none, depth := 0 }

/-- pthread_mutex_lock by thread u: none means the call would block or
deadlock instead of returning. -/
def Mutex.tryLock (m : Mutex) (u : Nat) : Option Mutex :=
  match m.owner with
  | none => some { m with owner := some u, depth := 1 }
  | some o =>
    if o = u then
      match m.kind with
      | MutexKind.recursive => some { m with depth := m.depth + 1 }
      | MutexKind.normal => none
    else none

/-- The process-wide state of the lifecycle component: the file-scope
statics of ceph_crypto.cc.  crypto_refs is the uint32 counter value,
ssl_mutexes is the lock table (none is the null pointer), ssl_num_locks
its recorded size, tids is init_records.tids, the two Installed flags are
whether CRYPTO_set_locking_callback and CRYPTO_set_id_callback currently
hold the callbacks of this translation unit, aborted records that
ceph_assert_always fired and the process died, and log is the trace of
external calls made so far. -/
structure SSLState where
  crypto_refs : Nat
  ssl_mutexes : Option (List Mutex)
  ssl_num_locks : Nat
  tids : List Nat
  lockingCallbackInstalled : Bool
  idCallbackInstalled : Bool
  aborted : Bool
  log : List Ev
  deriving DecidableEq

/-- The statics at process start: zero-initialized counter, null lock
table, empty registry, no callbacks installed. -/
def state0 : SSLState :=
  { crypto_refs := 0, ssl_mutexes := none, ssl_num_locks := 0, tids := [],
    lockingCallbackInstalled := false, idCallbackInstalled := false,
    aborted := false, log := [] }

/-- The external library environment: the slot count CRYPTO_num_locks
reports (an int in the source, so possibly negative) and whether the
allocation of the lock table succeeds. -/
structure Env where
  numLocks : Int
  allocOk : Bool
  deriving DecidableEq

/-- ceph::crypto::ssl::init, called by thread t.  Mirrors the source:
increment crypto_refs; if the new value is 1, run the one-time setup
(algorithm tables, error strings, read the slot count, allocate the lock
table or die in ceph_assert_always, pthread_mutex_init every slot with the
recursive attribute, install the locking and id callbacks, OPENSSL_config);
in every case record the calling thread identity into init_records.tids
under init_records.lock. -/
def init (env : Env) (t : Nat) (s : SSLState) : SSLState :=
  if s.aborted then s else
  let s1 : SSLState := { s with crypto_refs := (s.crypto_refs + 1) % W }
  let s2 : SSLState :=
    if s1.crypto_refs = 1 then
      let sa : SSLState := { s1 with log := s1.log ++ [Ev.addAllAlgorithms, Ev.loadErrStrings] }
      let n : Nat := (max env.numLocks 0).toNat
      let sb : SSLState := { sa with ssl_num_locks := n }
      let sc : SSLState :=
        if 0 < n then
          if env.allocOk then
            { sb with ssl_mutexes := some (List.replicate n mutexUninit),
                      log := sb.log ++ [Ev.allocLockTable n] }
          else
            { sb with aborted := true, log := sb.log ++ [Ev.abortProcess] }
        else sb
      if sc.aborted then sc else
      let sd : SSLState :=
        { sc with ssl_mutexes := sc.ssl_mutexes.map
                    (fun tbl => (List.range n).foldl (fun tb i => tb.set i recMutex) tbl),
                  log := sc.log ++ (List.range n).map Ev.mutexInit }
      { sd with lockingCallbackInstalled := true, idCallbackInstalled := true,
                log := sd.log ++ [Ev.setLockingCallback true, Ev.setIdCallback true, Ev.opensslConfig] }
    else s1
  if s2.aborted then s2 else
  { s2 with tids := s2.tids ++ [t],
            log := s2.log ++ [Ev.lockRegistry, Ev.recordTid t, Ev.unlockRegistry] }

/-- ceph::crypto::ssl::shutdown.  Mirrors the source: decrement
crypto_refs and return at once if the result is nonzero; otherwise, under
init_records.lock call ERR_remove_thread_state for every recorded thread
identity (note the source does not clear init_records.tids), uninstall the
locking and id callbacks, run the full cleanup sequence, destroy every
mutex of the lock table, delete it and null the pointer. -/
def shutdown (s : SSLState) : SSLState :=
  if s.aborted then s else
  let s1 : SSLState := { s with crypto_refs := (s.crypto_refs + (W - 1)) % W }
  if s1.crypto_refs ≠ 0 then
    s1
  else
    let s2 : SSLState :=
      { s1 with log := s1.log ++ [Ev.lockRegistry] ++ s1.tids.map Ev.removeThreadState
                  ++ [Ev.unlockRegistry] }
    let s3 : SSLState :=
      { s2 with lockingCallbackInstalled := false, log := s2.log ++ [Ev.setLockingCallback false] }
    let s4 : SSLState :=
      { s3 with idCallbackInstalled := false, log := s3.log ++ [Ev.setIdCallback false] }
    let s5 : SSLState :=
      { s4 with log := s4.log ++ [Ev.engineCleanup, Ev.confModulesFree, Ev.confModulesUnload,
                  Ev.errFreeStrings, Ev.evpCleanup, Ev.cleanupAllExData] }
    let s6 : SSLState :=
      { s5 with log := s5.log ++ (List.range s5.ssl_num_locks).map Ev.mutexDestroy }
    { s6 with ssl_mutexes := none, log := s6.log ++ [Ev.freeLockTable] }

/-- A sequence of init calls, one per thread identity in ts, in order. -/
def initN (env : Env) (ts : List Nat) (s : SSLState) : SSLState :=
  ts.foldl (fun s t => init env t s) s

/-- n successive shutdown calls. -/
def shutdownN (n : Nat) (s : SSLState) : SSLState := shutdown^[n] s

/-- The lock table as a list of mutexes (empty when the pointer is null). -/
def lockTable (s : SSLState) : List Mutex := s.ssl_mutexes.getD []

/-- How many times the one-time library setup has run, counted by its
first call OpenSSL_add_all_algorithms. -/
def nSetup (s : SSLState) : Nat := s.log.count Ev.addAllAlgorithms

/-- How many times the full cleanup sequence has run, counted by its first
library call ENGINE_cleanup. -/
def nCleanup (s : SSLState) : Nat := s.log.count Ev.engineCleanup

/-- Trace of the tid-recording tail of init: emplace_back under
init_records.lock. -/
def recordTrace (t : Nat) : List Ev := [Ev.lockRegistry, Ev.recordTid t, Ev.unlockRegistry]

/-- Trace of the one-time setup when the reported slot count n is
positive, in source order. -/
def setupTracePos (n : Nat) : List Ev :=
  [Ev.addAllAlgorithms, Ev.loadErrStrings, Ev.allocLockTable n]
    ++ (List.range n).map Ev.mutexInit
    ++ [Ev.setLockingCallback true, Ev.setIdCallback true, Ev.opensslConfig]

/-- Trace of the one-time setup when the reported slot count is zero: no
allocation and an empty mutex-init loop. -/
def setupTraceZero : List Ev :=
  [Ev.addAllAlgorithms, Ev.loadErrStrings,
   Ev.setLockingCallback true, Ev.setIdCallback true, Ev.opensslConfig]

/-- Trace of the draining shutdown path, in the order the specification
states it: per-thread state release bracketed by the registry lock, then
callback uninstallation, then the library cleanup sequence, then mutex
destruction and deallocation of the lock table. -/
def drainTrace (tids : List Nat) (n : Nat) : List Ev :=
  [Ev.lockRegistry] ++ tids.map Ev.removeThreadState ++ [Ev.unlockRegistry]
    ++ [Ev.setLockingCallback false, Ev.setIdCallback false]
    ++ [Ev.engineCleanup, Ev.confModulesFree, Ev.confModulesUnload,
        Ev.errFreeStrings, Ev.evpCleanup, Ev.cleanupAllExData]
    ++ (List.range n).map Ev.mutexDestroy ++ [Ev.freeLockTable]

/-- A digest algorithm as the EVP layer exposes it: the declared digest
length EVP_MD_size and the backend hash function of the byte sequence fed
since the last EVP_DigestInit_ex. -/
structure MD where
  mdSize : Nat
  digest : List Nat → List Nat

/-- The EVP contract for an algorithm: the finalized output always has
exactly the declared length. -/
def WellBehaved (t : MD) : Prop := ∀ l, (t.digest l).length = t.mdSize

/-- ceph::crypto::ssl::OpenSSLDigest: the configured algorithm mpType and
the EVP_MD_CTX state, modelled as the bytes fed since the last init. -/
structure OpenSSLDigest where
  mpType : MD
  fed : List Nat

/-- OpenSSLDigest::Restart: EVP_DigestInit_ex discards any partial
state. -/
def OpenSSLDigest.Restart (c : OpenSSLDigest) : OpenSSLDigest := { c with fed := [] }

/-- The OpenSSLDigest constructor: create the context, then Restart. -/
def mkDigest (t : MD) : OpenSSLDigest :=
  OpenSSLDigest.Restart { mpType := t, fed := [] }

/-- OpenSSLDigest::Update(input, length).  The buffer is an Option: none
models a null or otherwise invalid pointer, whose dereference would
fault, as would reading more bytes than the buffer holds.  The source
calls EVP_DigestUpdate only when length is nonzero. -/
def OpenSSLDigest.Update (c : OpenSSLDigest) (input : Option (List Nat)) (length : Nat) :
    Option OpenSSLDigest :=
  if length = 0 then some c
  else
    match input with
    | none => none
    | some bs =>
      if length ≤ bs.length then some { c with fed := c.fed ++ bs.take length } else none

/-- EVP_DigestFinal_ex: the bytes written into the caller buffer and the
size the library reports back through the out-parameter s. -/
def EVP_DigestFinal_ex (c : OpenSSLDigest) : List Nat × Nat :=
  let out := c.mpType.digest c.fed
  (out, out.length)

/-- OpenSSLDigest::Final: the source passes a local unsigned int s to
EVP_DigestFinal_ex and then returns, discarding s without comparing it to
the declared digest length; the caller observes only the buffer. -/
def OpenSSLDigest.Final (c : OpenSSLDigest) : List Nat :=
  (EVP_DigestFinal_ex c).1

/-- Feeding a list of chunks by successive Update calls, each with the
exact length of its chunk; none if any call would fault. -/
def feedAll : OpenSSLDigest → List (List Nat) → Option OpenSSLDigest
  | c, [] => some c
  | c, ch :: rest =>
    match c.Update (some ch) ch.length with
    | none => none
    | some c2 => feedAll c2 rest

/-- An algorithm whose backend misbehaves: it declares a 16-byte digest
but produces 2 bytes. -/
def badMD : MD := { mdSize := 16, digest := fun _ => [0, 0] }

/-- A well-behaved 4-byte algorithm, used as a witness input. -/
def goodMD : MD := { mdSize := 4, digest := fun _ => [0, 0, 0, 0] }

lemma W_eq : W = 4294967296 := by norm_num [W]

lemma count_map_ne {β : Type} (f : β → Ev) (l : List β) (a : Ev) (h : ∀ b, f b ≠ a) :
    (l.map f).count a = 0 := by
  rw [List.count_eq_zero]
  intro hmem
  rcases List.mem_map.mp hmem with ⟨b, _, hfb⟩
  exact h b hfb

lemma count_recordTrace_addAll (t : Nat) : (recordTrace t).count Ev.addAllAlgorithms = 0 := rfl

lemma count_recordTrace_engine (t : Nat) : (recordTrace t).count Ev.engineCleanup = 0 := rfl

lemma count_setupTracePos_addAll (n : Nat) : (setupTracePos n).count Ev.addAllAlgorithms = 1 := by
  have hm : ((List.range n).map Ev.mutexInit).count Ev.addAllAlgorithms = 0 :=
    count_map_ne _ _ _ (fun b => by simp)
  simp [setupTracePos, hm, List.count_cons, List.count_append]

lemma count_setupTracePos_engine (n : Nat) : (setupTracePos n).count Ev.engineCleanup = 0 := by
  have hm : ((List.range n).map Ev.mutexInit).count Ev.engineCleanup = 0 :=
    count_map_ne _ _ _ (fun b => by simp)
  simp [setupTracePos, hm, List.count_cons, List.count_append]

lemma count_setupTraceZero_addAll : setupTraceZero.count Ev.addAllAlgorithms = 1 := rfl

lemma count_setupTraceZero_engine : setupTraceZero.count Ev.engineCleanup = 0 := rfl

lemma count_drainTrace_addAll (ts : List Nat) (n : Nat) :
    (drainTrace ts n).count Ev.addAllAlgorithms = 0 := by
  have h1 : (ts.map Ev.removeThreadState).count Ev.addAllAlgorithms = 0 :=
    count_map_ne _ _ _ (fun b => by simp)
  have h2 : ((List.range n).map Ev.mutexDestroy).count Ev.addAllAlgorithms = 0 :=
    count_map_ne _ _ _ (fun b => by simp)
  simp [drainTrace, h1, h2, List.count_cons, List.count_append]

lemma count_drainTrace_engine (ts : List Nat) (n : Nat) :
    (drainTrace ts n).count Ev.engineCleanup = 1 := by
  have h1 : (ts.map Ev.removeThreadState).count Ev.engineCleanup = 0 :=
    count_map_ne _ _ _ (fun b => by simp)
  have h2 : ((List.range n).map Ev.mutexDestroy).count Ev.engineCleanup = 0 :=
    count_map_ne _ _ _ (fun b => by simp)
  simp [drainTrace, h1, h2, List.count_cons, List.count_append]

lemma set_replicate_append (v v2 : Mutex) :
    ∀ (n : Nat) (a : Mutex) (l2 : List Mutex),
      (List.replicate n v ++ a :: l2).set n v2 = List.replicate n v ++ v2 :: l2 := by
  intro n
  induction n with
  | zero => intro a l2; simp
  | succ n ih =>
    intro a l2
    simp only [List.replicate_succ, List.cons_append, List.set_cons_succ]
    rw [ih a l2]

lemma range_foldl_set (v w : Mutex) :
    ∀ (n : Nat) (l2 : List Mutex),
      (List.range n).foldl (fun tb i => tb.set i v) (List.replicate n w ++ l2)
        = List.replicate n v ++ l2 := by
  intro n
  induction n with
  | zero => intro l2; simp
  | succ n ih =>
    intro l2
    rw [List.range_succ, List.foldl_append]
    have h1 : List.replicate (n + 1) w ++ l2 = List.replicate n w ++ (w :: l2) := by
      rw [List.replicate_succ' n w]
      simp
    rw [h1, ih (w :: l2)]
    simp only [List.foldl_cons, List.foldl_nil]
    rw [set_replicate_append v v n w l2]
    rw [List.replicate_succ' n v]
    simp

lemma foldl_set_all (n : Nat) :
    (List.range n).foldl (fun tb i => tb.set i recMutex) (List.replicate n mutexUninit)
      = List.replicate n recMutex := by
  have h := range_foldl_set recMutex mutexUninit n []
  simpa using h

lemma init_not_first (env : Env) (t : Nat) (s : SSLState)
    (ha : s.aborted = false) (hne : (s.crypto_refs + 1) % W ≠ 1) :
    init env t s = { s with crypto_refs := (s.crypto_refs + 1) % W,
                            tids := s.tids ++ [t],
                            log := s.log ++ recordTrace t } := by
  simp [init, ha, hne, recordTrace]

lemma init_first_pos (env : Env) (t : Nat) (s : SSLState)
    (ha : s.aborted = false) (hr : (s.crypto_refs + 1) % W = 1)
    (hok : env.allocOk = true) (hn : 0 < (max env.numLocks 0).toNat) :
    init env t s =
      { s with crypto_refs := 1,
               ssl_num_locks := (max env.numLocks 0).toNat,
               ssl_mutexes := some (List.replicate (max env.numLocks 0).toNat recMutex),
               lockingCallbackInstalled := true,
               idCallbackInstalled := true,
               tids := s.tids ++ [t],
               log := s.log ++ setupTracePos (max env.numLocks 0).toNat ++ recordTrace t } := by
  simp [init, ha, hr, hok, hn, foldl_set_all, setupTracePos, recordTrace, List.append_assoc]

lemma init_first_zero (env : Env) (t : Nat) (s : SSLState)
    (ha : s.aborted = false) (hr : (s.crypto_refs + 1) % W = 1)
    (hn : (max env.numLocks 0).toNat = 0) :
    init env t s =
      { s with crypto_refs := 1,
               ssl_num_locks := 0,
               lockingCallbackInstalled := true,
               idCallbackInstalled := true,
               tids := s.tids ++ [t],
               log := s.log ++ setupTraceZero ++ recordTrace t } := by
  simp [init, ha, hr, hn, setupTraceZero, recordTrace, List.append_assoc, Option.map_id']

lemma init_first_fail (env : Env) (t : Nat) (s : SSLState)
    (ha : s.aborted = false) (hr : (s.crypto_refs + 1) % W = 1)
    (hbad : env.allocOk = false) (hn : 0 < (max env.numLocks 0).toNat) :
    init env t s =
      { s with crypto_refs := 1,
               ssl_num_locks := (max env.numLocks 0).toNat,
               aborted := true,
               log := s.log ++ [Ev.addAllAlgorithms, Ev.loadErrStrings, Ev.abortProcess] } := by
  simp [init, ha, hr, hbad, hn, List.append_assoc]

lemma shutdown_nondrain (s : SSLState) (ha : s.aborted = false)
    (hne : (s.crypto_refs + (W - 1)) % W ≠ 0) :
    shutdown s = { s with crypto_refs := (s.crypto_refs + (W - 1)) % W } := by
  simp [shutdown, ha, hne]

lemma shutdown_drain (s : SSLState) (ha : s.aborted = false)
    (h0 : (s.crypto_refs + (W - 1)) % W = 0) :
    shutdown s = { s with crypto_refs := 0,
                          lockingCallbackInstalled := false,
                          idCallbackInstalled := false,
                          ssl_mutexes := none,
                          log := s.log ++ drainTrace s.tids s.ssl_num_locks } := by
  simp [shutdown, ha, h0, drainTrace, List.append_assoc]

lemma nSetup_refs (s : SSLState) (r : Nat) : nSetup { s with crypto_refs := r } = nSetup s := rfl

lemma nCleanup_refs (s : SSLState) (r : Nat) :
    nCleanup { s with crypto_refs := r } = nCleanup s := rfl

lemma init_first_counts (env : Env) (t : Nat) (s : SSLState)
    (ha : s.aborted = false) (hr : (s.crypto_refs + 1) % W = 1) (hok : env.allocOk = true) :
    (init env t s).aborted = false ∧ (init env t s).crypto_refs = 1 ∧
    (init env t s).tids = s.tids ++ [t] ∧
    nSetup (init env t s) = nSetup s + 1 ∧ nCleanup (init env t s) = nCleanup s := by
  by_cases hn : 0 < (max env.numLocks 0).toNat
  · rw [init_first_pos env t s ha hr hok hn]
    simp [nSetup, nCleanup, List.count_append, count_setupTracePos_addAll,
      count_setupTracePos_engine, count_recordTrace_addAll, count_recordTrace_engine, ha]
  · rw [init_first_zero env t s ha hr (by omega)]
    simp [nSetup, nCleanup, List.count_append, count_setupTraceZero_addAll,
      count_setupTraceZero_engine, count_recordTrace_addAll, count_recordTrace_engine, ha]

lemma init_not_first_counts (env : Env) (t : Nat) (s : SSLState)
    (ha : s.aborted = false) (hne : (s.crypto_refs + 1) % W ≠ 1) :
    (init env t s).aborted = false ∧ (init env t s).crypto_refs = (s.crypto_refs + 1) % W ∧
    (init env t s).tids = s.tids ++ [t] ∧
    nSetup (init env t s) = nSetup s ∧ nCleanup (init env t s) = nCleanup s := by
  rw [init_not_first env t s ha hne]
  simp [nSetup, nCleanup, List.count_append, count_recordTrace_addAll,
    count_recordTrace_engine, ha]

lemma shutdown_drain_counts (s : SSLState) (ha : s.aborted = false) (hr : s.crypto_refs = 1) :
    (shutdown s).aborted = false ∧ (shutdown s).crypto_refs = 0 ∧
    (shutdown s).tids = s.tids ∧
    nSetup (shutdown s) = nSetup s ∧ nCleanup (shutdown s) = nCleanup s + 1 := by
  have h0 : (s.crypto_refs + (W - 1)) % W = 0 := by rw [hr]; decide
  rw [shutdown_drain s ha h0]
  simp [nSetup, nCleanup, List.count_append, count_drainTrace_addAll,
    count_drainTrace_engine, ha]

lemma shutdown_zero (s : SSLState) (ha : s.aborted = false) (h0 : s.crypto_refs = 0) :
    shutdown s = { s with crypto_refs := W - 1 } := by
  have hne : (s.crypto_refs + (W - 1)) % W ≠ 0 := by rw [h0]; decide
  rw [shutdown_nondrain s ha hne, h0]
  have hv : (0 + (W - 1)) % W = W - 1 := by decide
  rw [hv]

lemma initN_cons (env : Env) (t : Nat) (ts : List Nat) (s : SSLState) :
    initN env (t :: ts) s = initN env ts (init env t s) := rfl

lemma initN_append (env : Env) (l1 l2 : List Nat) (s : SSLState) :
    initN env (l1 ++ l2) s = initN env l2 (initN env l1 s) := by
  simp [initN, List.foldl_append]

lemma initN_run (env : Env) :
    ∀ (ts : List Nat) (s : SSLState), s.aborted = false → 1 ≤ s.crypto_refs →
      s.crypto_refs + ts.length < W →
      (initN env ts s).aborted = false ∧
      (initN env ts s).crypto_refs = s.crypto_refs + ts.length ∧
      (initN env ts s).tids = s.tids ++ ts ∧
      nSetup (initN env ts s) = nSetup s ∧
      nCleanup (initN env ts s) = nCleanup s := by
  intro ts
  induction ts with
  | nil => intro s ha _ _; simp [initN, ha]
  | cons t ts ih =>
    intro s ha h1 h2
    have hlen : s.crypto_refs + 1 < W := by simp at h2; omega
    have hmod : (s.crypto_refs + 1) % W = s.crypto_refs + 1 := Nat.mod_eq_of_lt hlen
    have hne : (s.crypto_refs + 1) % W ≠ 1 := by rw [hmod]; omega
    rw [initN_cons]
    obtain ⟨ha2, hr2, ht2, hs2, hc2⟩ := init_not_first_counts env t s ha hne
    obtain ⟨ha3, hr3, ht3, hs3, hc3⟩ := ih (init env t s) ha2
      (by rw [hr2, hmod]; omega)
      (by rw [hr2, hmod]; simp at h2 ⊢; omega)
    refine ⟨ha3, ?_, ?_, ?_, ?_⟩
    · rw [hr3, hr2, hmod]; simp; omega
    · rw [ht3, ht2]; simp
    · rw [hs3, hs2]
    · rw [hc3, hc2]

lemma shutdownN_one (s : SSLState) : shutdownN 1 s = shutdown s := rfl

lemma shutdownN_add (m n : Nat) (s : SSLState) :
    shutdownN (m + n) s = shutdownN m (shutdownN n s) := by
  simp [shutdownN, Function.iterate_add_apply]

lemma shutdownN_succ (n : Nat) (s : SSLState) :
    shutdownN (n + 1) s = shutdownN n (shutdown s) := by
  simp [shutdownN, Function.iterate_succ_apply]

lemma shutdownN_no_drain :
    ∀ (n : Nat) (s : SSLState), s.aborted = false → n < s.crypto_refs → s.crypto_refs < W →
      shutdownN n s = { s with crypto_refs := s.crypto_refs - n } := by
  intro n
  induction n with
  | zero => intro s _ _ _; simp [shutdownN]
  | succ n ih =>
    intro s ha h1 h2
    have hne : (s.crypto_refs + (W - 1)) % W ≠ 0 := by rw [W_eq] at h2 ⊢; omega
    have hval : (s.crypto_refs + (W - 1)) % W = s.crypto_refs - 1 := by
      rw [W_eq] at h2 ⊢; omega
    rw [shutdownN_succ, shutdown_nondrain s ha hne, hval,
      ih _ (by simp [ha]) (by simp; omega) (by simp; omega)]
    have heq : s.crypto_refs - 1 - n = s.crypto_refs - (n + 1) := by omega
    simp [heq]

lemma phaseA (env : Env) (hok : env.allocOk = true) (ts : List Nat)
    (h1 : 1 ≤ ts.length) (h2 : ts.length ≤ W) :
    (initN env ts state0).aborted = false ∧
    (initN env ts state0).crypto_refs = ts.length % W ∧
    nSetup (initN env ts state0) = 1 ∧
    nCleanup (initN env ts state0) = 0 := by
  cases ts with
  | nil => simp at h1
  | cons t ts =>
    rw [initN_cons]
    have hfirst : (state0.crypto_refs + 1) % W = 1 := by simp [state0, W_eq]
    obtain ⟨ha1, hr1, _, hs1, hc1⟩ := init_first_counts env t state0 rfl hfirst hok
    have hs0 : nSetup state0 = 0 := rfl
    have hc0 : nCleanup state0 = 0 := rfl
    by_cases hlt : (t :: ts).length < W
    · obtain ⟨ha2, hr2, _, hs2, hc2⟩ := initN_run env ts (init env t state0) ha1
        (by rw [hr1]) (by rw [hr1]; simp at hlt ⊢; omega)
      refine ⟨ha2, ?_, ?_, ?_⟩
      · rw [hr2, hr1, Nat.mod_eq_of_lt hlt]; simp only [List.length_cons]; omega
      · rw [hs2, hs1, hs0]
      · rw [hc2, hc1, hc0]
    · have hWeq : ts.length + 1 = W := by simp at h2 hlt ⊢; omega
      have hne : ts ≠ [] := by
        intro h
        rw [h] at hWeq
        simp only [List.length_nil] at hWeq
        rw [W_eq] at hWeq
        omega
      obtain ⟨tsA, tl, hsplit⟩ : ∃ tsA tl, ts = tsA ++ [tl] :=
        ⟨ts.dropLast, ts.getLast hne, (List.dropLast_append_getLast hne).symm⟩
      have hlenA : tsA.length = W - 2 := by
        have hl : ts.length = tsA.length + 1 := by rw [hsplit]; simp
        rw [W_eq] at hWeq ⊢; omega
      rw [hsplit, initN_append]
      obtain ⟨ha2, hr2, _, hs2, hc2⟩ := initN_run env tsA (init env t state0) ha1
        (by rw [hr1]) (by rw [hr1, hlenA, W_eq]; omega)
      have hne2 : ((initN env tsA (init env t state0)).crypto_refs + 1) % W ≠ 1 := by
        rw [hr2, hr1, hlenA, W_eq]; omega
      obtain ⟨ha3, hr3, _, hs3, hc3⟩ := init_not_first_counts env tl _ ha2 hne2
      have hone : initN env [tl] (initN env tsA (init env t state0))
          = init env tl (initN env tsA (init env t state0)) := rfl
      rw [hone]
      refine ⟨ha3, ?_, ?_, ?_⟩
      · rw [hr3, hr2, hr1, hlenA]
        simp only [List.length_append, List.length_cons, List.length_nil, hlenA]
        rw [W_eq]
        try omega
      · rw [hs3, hs2, hs1, hs0]
      · rw [hc3, hc2, hc1, hc0]

lemma phaseB (s : SSLState) (ha : s.aborted = false) (n : Nat)
    (hrefs : s.crypto_refs = n % W) (h1 : 1 ≤ n) (h2 : n ≤ W) :
    (shutdownN n s).crypto_refs = 0 ∧
    nSetup (shutdownN n s) = nSetup s ∧
    nCleanup (shutdownN n s) = nCleanup s + 1 := by
  by_cases hlt : n < W
  · have hr : s.crypto_refs = n := by rw [hrefs, Nat.mod_eq_of_lt hlt]
    have hsplit : shutdownN n s = shutdownN 1 (shutdownN (n - 1) s) := by
      rw [← shutdownN_add, show 1 + (n - 1) = n from by omega]
    have e1 : shutdownN (n - 1) s = { s with crypto_refs := s.crypto_refs - (n - 1) } :=
      shutdownN_no_drain (n - 1) s ha (by omega) (by rw [hr]; omega)
    rw [hsplit, e1, shutdownN_one]
    obtain ⟨_, hr4, _, hs4, hc4⟩ :=
      shutdown_drain_counts { s with crypto_refs := s.crypto_refs - (n - 1) } ha
        (by show s.crypto_refs - (n - 1) = 1; omega)
    refine ⟨hr4, ?_, ?_⟩
    · rw [hs4, nSetup_refs]
    · rw [hc4, nCleanup_refs]
  · have hn : n = W := by omega
    subst hn
    have hr0 : s.crypto_refs = 0 := by rw [hrefs, Nat.mod_self]
    have hsplit : shutdownN W s = shutdownN 1 (shutdownN (W - 2) (shutdownN 1 s)) := by
      rw [← shutdownN_add, ← shutdownN_add,
        show 1 + (W - 2) + 1 = W from by rw [W_eq]]
    have e1 : shutdownN 1 s = { s with crypto_refs := W - 1 } := by
      rw [shutdownN_one]
      exact shutdown_zero s ha hr0
    have e2 : shutdownN (W - 2) { s with crypto_refs := W - 1 }
        = { s with crypto_refs := W - 1 - (W - 2) } := by
      have h := shutdownN_no_drain (W - 2) { s with crypto_refs := W - 1 } ha
        (by show W - 2 < W - 1; rw [W_eq]; try omega)
        (by show W - 1 < W; rw [W_eq]; try omega)
      simpa using h
    rw [hsplit, e1, e2, shutdownN_one]
    obtain ⟨_, hr4, _, hs4, hc4⟩ :=
      shutdown_drain_counts { s with crypto_refs := W - 1 - (W - 2) } ha
        (by show W - 1 - (W - 2) = 1; rw [W_eq]; try omega)
    refine ⟨hr4, ?_, ?_⟩
    · rw [hs4, nSetup_refs]
    · rw [hc4, nCleanup_refs]

lemma update_full (c : OpenSSLDigest) (bs : List Nat) :
    c.Update (some bs) bs.length = some { c with fed := c.fed ++ bs } := by
  by_cases h : bs.length = 0
  · have hb : bs = [] := List.length_eq_zero.mp h
    subst hb
    simp [OpenSSLDigest.Update]
  · simp [OpenSSLDigest.Update, h]

lemma feedAll_flatten :
    ∀ (chunks : List (List Nat)) (c : OpenSSLDigest),
      feedAll c chunks = some { c with fed := c.fed ++ chunks.flatten } := by
  intro chunks
  induction chunks with
  | nil => intro c; simp [feedAll]
  | cons ch rest ih =>
    intro c
    simp only [feedAll, update_full, ih]
    simp [List.append_assoc]

end ceph.crypto.ssl

namespace ceph.crypto.ssl

/-- C1 (amended): for every environment in which allocation succeeds and
every order ts of the acquiring threads with 1 ≤ N ≤ 2 ^ 32 where N is
the number of acquires, N init calls followed by N shutdown calls run the
one-time library setup exactly once, run the full cleanup sequence exactly
once, and leave crypto_refs at zero.  The upper bound N ≤ 2 ^ 32 is forced
by the 32-bit counter: see the counterexample, where N = 2 ^ 32 + 1 makes
the counter wrap and the setup run twice. -/
theorem C1_acquire_release_balanced (env : Env) (ts : List Nat)
    (hok : env.allocOk = true) (h1 : 1 ≤ ts.length) (h2 : ts.length ≤ W) :
    nSetup (shutdownN ts.length (initN env ts state0)) = 1 ∧
    nCleanup (shutdownN ts.length (initN env ts state0)) = 1 ∧
    (shutdownN ts.length (initN env ts state0)).crypto_refs = 0 := by
  obtain ⟨ha, hr, hs, hc⟩ := phaseA env hok ts h1 h2
  obtain ⟨hr2, hs2, hc2⟩ := phaseB (initN env ts state0) ha ts.length hr h1 h2
  exact ⟨by rw [hs2, hs], by rw [hc2, hc], hr2⟩

/-- C1 witness: one acquire followed by one release, in a concrete
environment reporting one lock slot. -/
theorem C1_witness :
    ((⟨1, true⟩ : Env).allocOk = true ∧ 1 ≤ ([7] : List Nat).length ∧
      ([7] : List Nat).length ≤ W) ∧
    (nSetup (shutdownN ([7] : List Nat).length (initN ⟨1, true⟩ [7] state0)) = 1 ∧
     nCleanup (shutdownN ([7] : List Nat).length (initN ⟨1, true⟩ [7] state0)) = 1 ∧
     (shutdownN ([7] : List Nat).length (initN ⟨1, true⟩ [7] state0)).crypto_refs = 0) :=
  ⟨⟨rfl, by decide, by decide⟩,
   C1_acquire_release_balanced ⟨1, true⟩ [7] rfl (by decide) (by decide)⟩

/-- C1 counterexample: at N = 2 ^ 32 + 1 the uint32 counter wraps during
the acquires, so the one-time setup runs twice and the cleanup sequence
runs twice; the claim as stated, for every N, is therefore false. -/
theorem C1_counterexample :
    nSetup (shutdownN (W + 1) (initN ⟨1, true⟩ (List.replicate (W + 1) 0) state0)) = 2 ∧
    nCleanup (shutdownN (W + 1) (initN ⟨1, true⟩ (List.replicate (W + 1) 0) state0)) = 2 ∧
    (shutdownN (W + 1) (initN ⟨1, true⟩ (List.replicate (W + 1) 0) state0)).crypto_refs = 0 ∧
    ¬ nSetup (shutdownN (W + 1) (initN ⟨1, true⟩ (List.replicate (W + 1) 0) state0)) = 1 := by
  have hfirst0 : (state0.crypto_refs + 1) % W = 1 := by decide
  obtain ⟨ha1, hr1, _, hs1, hc1⟩ := init_first_counts ⟨1, true⟩ 0 state0 rfl hfirst0 rfl
  obtain ⟨ha2, hr2, _, hs2, hc2⟩ := initN_run ⟨1, true⟩ (List.replicate (W - 2) 0)
    (init ⟨1, true⟩ 0 state0) ha1 (by rw [hr1])
    (by rw [hr1, List.length_replicate, W_eq]; omega)
  have hra2 : (initN ⟨1, true⟩ (List.replicate (W - 2) 0)
      (init ⟨1, true⟩ 0 state0)).crypto_refs = W - 1 := by
    rw [hr2, hr1, List.length_replicate, W_eq]
  obtain ⟨ha3, hr3, _, hs3, hc3⟩ := init_not_first_counts ⟨1, true⟩ 0 _ ha2
    (by rw [hra2, W_eq]; decide)
  have hra3 : (init ⟨1, true⟩ 0 (initN ⟨1, true⟩ (List.replicate (W - 2) 0)
      (init ⟨1, true⟩ 0 state0))).crypto_refs = 0 := by
    rw [hr3, hra2]
    decide
  obtain ⟨ha4, hr4, _, hs4, hc4⟩ := init_first_counts ⟨1, true⟩ 0 _ ha3
    (by rw [hra3]; decide) rfl
  have hrep : List.replicate (W + 1) (0 : Nat)
      = ((List.replicate 1 0 ++ List.replicate (W - 2) 0) ++ List.replicate 1 0)
        ++ List.replicate 1 0 := by
    rw [← List.replicate_add, ← List.replicate_add, ← List.replicate_add,
      show 1 + (W - 2) + 1 + 1 = W + 1 from by rw [W_eq]]
  rw [hrep, initN_append, initN_append, initN_append,
    show List.replicate 1 (0 : Nat) = [0] from rfl]
  simp only [show ∀ x : SSLState, initN ⟨1, true⟩ [0] x = init ⟨1, true⟩ 0 x from
    fun x => rfl]
  rw [shutdownN_add W 1, shutdownN_one]
  obtain ⟨hab1, hrb1, _, hsb1, hcb1⟩ := shutdown_drain_counts _ ha4 hr4
  obtain ⟨hrB, hsB, hcB⟩ := phaseB _ hab1 W (by rw [hrb1, Nat.mod_self])
    (by rw [W_eq]; omega) (le_refl W)
  refine ⟨?_, ?_, hrB, ?_⟩
  · rw [hsB, hsb1, hs4, hs3, hs2, hs1]
    rfl
  · rw [hcB, hcb1, hc4, hc3, hc2, hc1]
    rfl
  · rw [hsB, hsb1, hs4, hs3, hs2, hs1]
    decide

/-- C2 (amended): after every init call the registry init_records.tids
gains an entry for the calling thread, recorded under the registry lock
whether or not the call was the first acquire; the draining release calls
ERR_remove_thread_state for every recorded identity under the registry
lock, but the source does not clear the registry, so its entries persist
(see the counterexample). -/
theorem C2_thread_registry (env : Env) (t : Nat) (s : SSLState)
    (hok : env.allocOk = true) (ha : s.aborted = false) :
    ((init env t s).tids = s.tids ++ [t] ∧ recordTrace t <:+ (init env t s).log) ∧
    (s.crypto_refs = 1 →
      (shutdown s).tids = s.tids ∧
      (shutdown s).log = s.log ++ drainTrace s.tids s.ssl_num_locks) := by
  constructor
  · by_cases hr : (s.crypto_refs + 1) % W = 1
    · by_cases hn : 0 < (max env.numLocks 0).toNat
      · rw [init_first_pos env t s ha hr hok hn]
        exact ⟨rfl, List.suffix_append _ _⟩
      · rw [init_first_zero env t s ha hr (by omega)]
        exact ⟨rfl, List.suffix_append _ _⟩
    · rw [init_not_first env t s ha hr]
      exact ⟨rfl, List.suffix_append _ _⟩
  · intro hr1
    have h0 : (s.crypto_refs + (W - 1)) % W = 0 := by rw [hr1]; decide
    rw [shutdown_drain s ha h0]
    exact ⟨rfl, rfl⟩

/-- C2 witness: one init and the draining shutdown at the empty start
state, in a concrete environment. -/
theorem C2_witness :
    ((⟨1, true⟩ : Env).allocOk = true ∧ state0.aborted = false) ∧
    (((init ⟨1, true⟩ 5 state0).tids = state0.tids ++ [5] ∧
      recordTrace 5 <:+ (init ⟨1, true⟩ 5 state0).log) ∧
     (state0.crypto_refs = 1 →
       (shutdown state0).tids = state0.tids ∧
       (shutdown state0).log = state0.log ++ drainTrace state0.tids state0.ssl_num_locks)) :=
  ⟨⟨rfl, rfl⟩, C2_thread_registry ⟨1, true⟩ 5 state0 rfl rfl⟩

/-- C2 counterexample: after an acquire by thread 7 and the draining
release, init_records.tids still holds the entry 7: the registry is not
cleared, contradicting the claim that it is empty afterwards. -/
theorem C2_counterexample :
    (shutdown (init ⟨1, true⟩ 7 state0)).crypto_refs = 0 ∧
    (shutdown (init ⟨1, true⟩ 7 state0)).tids = [7] ∧
    ¬ (shutdown (init ⟨1, true⟩ 7 state0)).tids = [] := by
  refine ⟨by decide, by decide, by decide⟩

/-- C3 (amended): provided the backend honours the EVP contract, Final
writes exactly the algorithm declared digest length of bytes, and the
size the backend determines internally equals the number of bytes
written; the implementation, however, discards that size without any
assertion, as the counterexample shows. -/
theorem C3_final_length (c : OpenSSLDigest) (h : WellBehaved c.mpType) :
    (OpenSSLDigest.Final c).length = c.mpType.mdSize ∧
    (EVP_DigestFinal_ex c).2 = (OpenSSLDigest.Final c).length :=
  ⟨h c.fed, rfl⟩

/-- C3 witness: a concrete well-behaved 4-byte algorithm. -/
theorem C3_witness :
    WellBehaved goodMD ∧
    ((OpenSSLDigest.Final (mkDigest goodMD)).length = (mkDigest goodMD).mpType.mdSize ∧
     (EVP_DigestFinal_ex (mkDigest goodMD)).2 = (OpenSSLDigest.Final (mkDigest goodMD)).length) :=
  ⟨fun _ => rfl, C3_final_length (mkDigest goodMD) (fun _ => rfl)⟩

/-- C3 counterexample: with a backend that misreports its digest length,
Final silently hands the caller 2 bytes although the algorithm declares
16: no assertion or validation of the internally determined size exists
in the source, which discards the out-parameter s unchecked. -/
theorem C3_counterexample :
    OpenSSLDigest.Final (mkDigest badMD) = [0, 0] ∧
    ¬ (OpenSSLDigest.Final (mkDigest badMD)).length = badMD.mdSize :=
  ⟨rfl, by decide⟩

/-- C4: Update with length zero is a no-op for every buffer argument,
including the null or invalid pointer modelled by none: the context is
returned unchanged, nothing is read through the pointer, and the backend
EVP_DigestUpdate is never reached. -/
theorem C4_update_zero_noop (c : OpenSSLDigest) (input : Option (List Nat)) :
    c.Update input 0 = some c := by
  simp [OpenSSLDigest.Update]

/-- C5: a first acquire sizes the lock table to exactly the slot count
the library reports, and every mutex in the table is initialized
recursive, so the same thread can lock the same slot twice without
deadlock. -/
theorem C5_lock_table (env : Env) (t u : Nat) (s : SSLState)
    (ha : s.aborted = false) (hfirst : (s.crypto_refs + 1) % W = 1)
    (hok : env.allocOk = true) (hmut : s.ssl_mutexes = none) (hnl : 0 ≤ env.numLocks) :
    (init env t s).ssl_num_locks = env.numLocks.toNat ∧
    (lockTable (init env t s)).length = env.numLocks.toNat ∧
    ∀ m ∈ lockTable (init env t s),
      m.kind = MutexKind.recursive ∧
      ((m.tryLock u).bind (fun m1 => m1.tryLock u)).isSome = true := by
  have hmax : (max env.numLocks 0).toNat = env.numLocks.toNat := by
    rw [max_eq_left hnl]
  by_cases hn : 0 < (max env.numLocks 0).toNat
  · rw [init_first_pos env t s ha hfirst hok hn]
    refine ⟨hmax, by simp [lockTable, hmax], ?_⟩
    intro m hm
    have hmem : m ∈ List.replicate (max env.numLocks 0).toNat recMutex := by
      simpa [lockTable] using hm
    have hmrec : m = recMutex := List.eq_of_mem_replicate hmem
    subst hmrec
    exact ⟨rfl, by simp [Mutex.tryLock, recMutex]⟩
  · have h0 : env.numLocks.toNat = 0 := by omega
    rw [init_first_zero env t s ha hfirst (by omega)]
    refine ⟨by simp [h0], by simp [lockTable, hmut, h0], ?_⟩
    intro m hm
    simp [lockTable, hmut] at hm

/-- C5 witness: a concrete first acquire with two reported lock slots,
relocked twice by a concrete thread. -/
theorem C5_witness :
    (state0.aborted = false ∧ (state0.crypto_refs + 1) % W = 1 ∧
     (⟨2, true⟩ : Env).allocOk = true ∧ state0.ssl_mutexes = none ∧
     (0 : Int) ≤ (⟨2, true⟩ : Env).numLocks) ∧
    ((init ⟨2, true⟩ 1 state0).ssl_num_locks = (⟨2, true⟩ : Env).numLocks.toNat ∧
     (lockTable (init ⟨2, true⟩ 1 state0)).length = (⟨2, true⟩ : Env).numLocks.toNat ∧
     ∀ m ∈ lockTable (init ⟨2, true⟩ 1 state0),
       m.kind = MutexKind.recursive ∧
       ((m.tryLock 9).bind (fun m1 => m1.tryLock 9)).isSome = true) :=
  ⟨⟨rfl, by decide, rfl, rfl, by decide⟩,
   C5_lock_table ⟨2, true⟩ 1 9 state0 rfl (by decide) rfl rfl (by decide)⟩

/-- C6: the draining release performs its steps in the specified order:
under the registry lock it releases the per-thread state of every
recorded identity, then uninstalls the locking and id callbacks, then
runs the full library cleanup sequence, then destroys every mutex of the
lock table and deallocates it, leaving the table pointer null so a later
acquire reinitializes from scratch. -/
theorem C6_shutdown_order (s : SSLState) (ha : s.aborted = false) (hr : s.crypto_refs = 1) :
    shutdown s = { s with crypto_refs := 0,
                          lockingCallbackInstalled := false,
                          idCallbackInstalled := false,
                          ssl_mutexes := none,
                          log := s.log ++ drainTrace s.tids s.ssl_num_locks } :=
  shutdown_drain s ha (by rw [hr]; decide)

/-- C6 witness: the draining release right after a concrete first
acquire. -/
theorem C6_witness :
    ((init ⟨1, true⟩ 3 state0).aborted = false ∧
     (init ⟨1, true⟩ 3 state0).crypto_refs = 1) ∧
    shutdown (init ⟨1, true⟩ 3 state0)
      = { init ⟨1, true⟩ 3 state0 with
          crypto_refs := 0,
          lockingCallbackInstalled := false,
          idCallbackInstalled := false,
          ssl_mutexes := none,
          log := (init ⟨1, true⟩ 3 state0).log
            ++ drainTrace (init ⟨1, true⟩ 3 state0).tids
                (init ⟨1, true⟩ 3 state0).ssl_num_locks } :=
  ⟨⟨by decide, by decide⟩,
   C6_shutdown_order (init ⟨1, true⟩ 3 state0) (by decide) (by decide)⟩

/-- C7: if the lock table allocation of a first acquire fails, the
process dies in ceph_assert_always right after the failed allocation and
init never returns to its caller, which the aborted flag and the abort
event record; on every non-failing path init completes with no error. -/
theorem C7_alloc_failure_fatal (env : Env) (t : Nat) (s : SSLState) (ha : s.aborted = false) :
    ((s.crypto_refs + 1) % W = 1 → env.allocOk = false → 0 < (max env.numLocks 0).toNat →
      init env t s
        = { s with crypto_refs := 1,
                   ssl_num_locks := (max env.numLocks 0).toNat,
                   aborted := true,
                   log := s.log ++ [Ev.addAllAlgorithms, Ev.loadErrStrings, Ev.abortProcess] }) ∧
    (env.allocOk = true → (init env t s).aborted = false) := by
  constructor
  · intro hr hbad hn
    exact init_first_fail env t s ha hr hbad hn
  · intro hok
    by_cases hr : (s.crypto_refs + 1) % W = 1
    · by_cases hn : 0 < (max env.numLocks 0).toNat
      · rw [init_first_pos env t s ha hr hok hn]
        exact ha
      · rw [init_first_zero env t s ha hr (by omega)]
        exact ha
    · rw [init_not_first env t s ha hr]
      exact ha

/-- C7 witness: a concrete environment whose allocation fails on a first
acquire. -/
theorem C7_witness :
    state0.aborted = false ∧
    (((state0.crypto_refs + 1) % W = 1 → (⟨3, false⟩ : Env).allocOk = false →
        0 < (max (⟨3, false⟩ : Env).numLocks 0).toNat →
        init ⟨3, false⟩ 0 state0
          = { state0 with crypto_refs := 1,
                          ssl_num_locks := (max (⟨3, false⟩ : Env).numLocks 0).toNat,
                          aborted := true,
                          log := state0.log
                            ++ [Ev.addAllAlgorithms, Ev.loadErrStrings, Ev.abortProcess] }) ∧
      ((⟨3, false⟩ : Env).allocOk = true → (init ⟨3, false⟩ 0 state0).aborted = false)) :=
  ⟨rfl, C7_alloc_failure_fatal ⟨3, false⟩ 0 state0 rfl⟩

/-- C8: a release whose post-decrement counter value is nonzero only
stores the decremented counter: callbacks, lock table, registry and the
call trace are untouched, so no library cleanup entry point runs. -/
theorem C8_release_nonzero_frame (s : SSLState) (ha : s.aborted = false)
    (hne : (s.crypto_refs + (W - 1)) % W ≠ 0) :
    shutdown s = { s with crypto_refs := (s.crypto_refs + (W - 1)) % W } :=
  shutdown_nondrain s ha hne

/-- C8 witness: a release at a concrete counter value of 5. -/
theorem C8_witness :
    (({ state0 with crypto_refs := 5 } : SSLState).aborted = false ∧
     (({ state0 with crypto_refs := 5 } : SSLState).crypto_refs + (W - 1)) % W ≠ 0) ∧
    shutdown { state0 with crypto_refs := 5 }
      = { { state0 with crypto_refs := 5 } with
          crypto_refs :=
            (({ state0 with crypto_refs := 5 } : SSLState).crypto_refs + (W - 1)) % W } :=
  ⟨⟨rfl, by decide⟩, C8_release_nonzero_frame { state0 with crypto_refs := 5 } rfl (by decide)⟩

/-- C9: a restarted digest context fed a byte sequence through one Update
call and one fed the same sequence as consecutive chunks through
successive Update calls finalize to identical output. -/
theorem C9_incremental_update (c : OpenSSLDigest) (chunks : List (List Nat)) :
    (feedAll c.Restart chunks).map OpenSSLDigest.Final
      = (c.Restart.Update (some chunks.flatten) chunks.flatten.length).map OpenSSLDigest.Final ∧
    (feedAll c.Restart chunks).isSome = true := by
  rw [feedAll_flatten, update_full]
  exact ⟨rfl, rfl⟩

/-- C10: a release while the counter is zero wraps the uint32 counter to
2 ^ 32 - 1, a nonzero post-decrement value, so the call stores only the
wrapped counter and runs no part of the shutdown sequence. -/
theorem C10_release_at_zero_wraps (s : SSLState) (ha : s.aborted = false)
    (h0 : s.crypto_refs = 0) :
    shutdown s = { s with crypto_refs := W - 1 } ∧ W - 1 ≠ 0 :=
  ⟨shutdown_zero s ha h0, by decide⟩

/-- C10 witness: a release at the start state, whose counter is zero. -/
theorem C10_witness :
    (state0.aborted = false ∧ state0.crypto_refs = 0) ∧
    (shutdown state0 = { state0 with crypto_refs := W - 1 } ∧ W - 1 ≠ 0) :=
  ⟨⟨rfl, rfl⟩, C10_release_at_zero_wraps state0 rfl rfl⟩

end ceph.crypto.ssl
